import Mathlib

/-!
# Verification of the continuous-wave (Morse) decode pipeline

Shallow embedding, over `ℚ`, of the stateful stages of the
`continuous_wave` Python package: the Morse decoder (`decoder/morse.py`),
the data-model constructors (`models.py`), the envelope tone detector
(`detection/tone.py`), the adaptive WPM timing analyzer
(`timing/adaptive.py`), the frequency detector lock logic
(`detection/frequency.py`) and the noise-reduction stages (`signal/noise.py`).

Python floats are modelled as exact rationals; a fallible dataclass
constructor (one whose `__post_init__` may raise `ValueError`) is modelled
as an `Except Unit` value.  Quantities that the code derives from the raw
audio chunk alone (RMS level, FFT peak, Goertzel SNR) are modelled as the
inputs of the corresponding step functions, since they do not depend on
the mutable stage state under scrutiny.
-/

namespace CW

/-- Python `max(a, b)` on rationals (keeps the first argument on ties);
kept `if`-based so that concrete evaluation reduces. -/
def maxQ (a b : ℚ) : ℚ := if b ≤ a then a else b

/-- Python `min(a, b)` on rationals. -/
def minQ (a b : ℚ) : ℚ := if a ≤ b then a else b

/-- Python `abs` on rationals. -/
def absQ (x : ℚ) : ℚ := if x < 0 then -x else x


/-- Morse element kinds, from `models.MorseElement`. -/
inductive MorseElement : Type where
  | dot | dash | elementGap | charGap | wordGap
deriving DecidableEq

/-- `models.ToneEvent` (already-validated record). -/
structure ToneEvent where
  isToneOn : Bool
  timestamp : ℚ
  amplitude : ℚ
deriving DecidableEq

/-- `models.MorseSymbol` (already-validated record). -/
structure MorseSymbol where
  element : MorseElement
  duration : ℚ
  timestamp : ℚ
deriving DecidableEq

/-- `models.DecodedCharacter` record (fields only; validation is
`mkDecodedCharacter`). -/
structure DecodedCharacter where
  char : String
  confidence : ℚ
  timestamp : ℚ
  morsePattern : String
deriving DecidableEq

/-- `models.DecodedCharacter.__post_init__`: confidence must lie in `[0,1]`,
timestamp must be nonnegative, and the character must be a single character
or a prosign starting with `<`; a violation raises `ValueError`, modelled
as `Except.error`. -/
def mkDecodedCharacter (char : String) (confidence timestamp : ℚ)
    (morsePattern : String) : Except Unit DecodedCharacter :=
  if ¬(0 ≤ confidence ∧ confidence ≤ 1) then .error ()
  else if timestamp < 0 then .error ()
  else if char.data.length ≠ 1 ∧ char.data.headD ' ' ≠ '<' then .error ()
  else .ok ⟨char, confidence, timestamp, morsePattern⟩

/-- `models.TimingStats` record (fields only). -/
structure TimingStats where
  dotDuration : ℚ
  wpm : ℚ
  confidence : ℚ
  numSamples : ℕ
deriving DecidableEq

/-- `models.TimingStats.__post_init__`: positive dot duration and WPM,
confidence in `[0,1]` (`numSamples : ℕ` is nonnegative by type). -/
def timingStatsValid (t : TimingStats) : Bool :=
  decide (0 < t.dotDuration) && decide (0 < t.wpm) &&
    decide (0 ≤ t.confidence ∧ t.confidence ≤ 1)

/-- `models.TimingStats.from_dot_duration`:
`wpm = 1200/(dot_duration·1000)`, confidence `min(1, n/10)` when `n > 0`
else `0`. -/
def timingStatsFromDotDuration (dotDuration : ℚ) (numSamples : ℕ) :
    TimingStats :=
  { dotDuration := dotDuration
    wpm := 1200 / (dotDuration * 1000)
    confidence := if 0 < numSamples then minQ 1 ((numSamples : ℚ) / 10) else 0
    numSamples := numSamples }

/-- `models.SignalStats` record (fields only). -/
structure SignalStats where
  frequency : ℚ
  snrDb : ℚ
  power : ℚ
  timestamp : ℚ
deriving DecidableEq

/-! ## `decoder/morse.py` -/

/-- The `MORSE_CODE` lookup table, in source order. -/
def morseCode : List (String × String) :=
  [(".-", "A"), ("-...", "B"), ("-.-.", "C"), ("-..", "D"), (".", "E"),
   ("..-.", "F"), ("--.", "G"), ("....", "H"), ("..", "I"), (".---", "J"),
   ("-.-", "K"), (".-..", "L"), ("--", "M"), ("-.", "N"), ("---", "O"),
   (".--.", "P"), ("--.-", "Q"), (".-.", "R"), ("...", "S"), ("-", "T"),
   ("..-", "U"), ("...-", "V"), (".--", "W"), ("-..-", "X"), ("-.--", "Y"),
   ("--..", "Z"),
   ("-----", "0"), (".----", "1"), ("..---", "2"), ("...--", "3"),
   ("....-", "4"), (".....", "5"), ("-....", "6"), ("--...", "7"),
   ("---..", "8"), ("----.", "9"),
   (".-.-.-", "."), ("--..--", ","), ("..--..", "?"), (".----.", "'"),
   ("-.-.--", "!"), ("-..-.", "/"), ("-.--.", "("), ("-.--.-", ")"),
   (".-...", "&"), ("---...", ":"), ("-.-.-.", ";"), ("-...-", "="),
   ("-....-", "-"), ("..--.-", "_"), (".-..-.", "\""), ("...-..-", "$"),
   (".--.-.", "@"),
   (".-.-", "<AA>"), ("-...-.-", "<BT>"), (".-.-.", "<AR>"),
   ("-.-.-", "<KA>"), ("...-.-", "<SK>"), ("........", "<HH>")]

/-- The literal passed as `char=` on the unknown-pattern branch of
`MorseDecoder._decode_pattern`.  In the source file those are the three
code points U+00EF U+00BF U+00BD (a mojibake encoding of U+FFFD), so the
string has length 3. -/
def replacementChar : String := "ï¿½"

/-- Inner loop of `MorseDecoder._edit_distance`: given the previous DP row,
the last entry of the current row and the remaining characters of `s2`,
produce the rest of the current row. -/
def edRowGo (c1 : Char) : List ℕ → ℕ → List Char → List ℕ
  | p0 :: ptail, curLast, c2 :: rest =>
      let v := min (ptail.headD 0 + 1)
        (min (curLast + 1) (p0 + (if c1 ≠ c2 then 1 else 0)))
      v :: edRowGo c1 ptail v rest
  | _, _, _ => []

/-- One outer-loop iteration of `_edit_distance`: row `i+1` from row `i`. -/
def edNextRow (prev : List ℕ) (i : ℕ) (c1 : Char) (s2 : List Char) :
    List ℕ :=
  (i + 1) :: edRowGo c1 prev (i + 1) s2

/-- `_edit_distance` after the argument swap (`len s1 ≥ len s2`). -/
def edAux (s1 s2 : List Char) : ℕ :=
  if s2.isEmpty then s1.length
  else
    let final := s1.foldl
      (fun (st : List ℕ × ℕ) c1 => (edNextRow st.1 st.2 c1 s2, st.2 + 1))
      (List.range (s2.length + 1), 0)
    final.1.getLastD 0

/-- `MorseDecoder._edit_distance` (the recursive swap unrolled once:
after swapping, the first argument is at least as long as the second). -/
def editDistance (s1 s2 : String) : ℕ :=
  if s1.length < s2.length then edAux s2.data s1.data
  else edAux s1.data s2.data

/-- The fold inside `MorseDecoder._fuzzy_match`: minimum edit distance seen
so far and the character of the first entry attaining it (`None` models the
initial `inf`/`None` pair). -/
def fuzzyFold (pattern : String) (entries : List (String × String))
    (acc : Option (ℕ × String)) : Option (ℕ × String) :=
  entries.foldl
    (fun acc e =>
      let d := editDistance pattern e.1
      match acc with
      | none => some (d, e.2)
      | some (m, b) => if d < m then some (d, e.2) else some (m, b))
    acc

/-- `MorseDecoder._fuzzy_match`: accept only a minimum edit distance `≤ 1`,
with confidence `max(0.3, 1 − distance/3)`. -/
def fuzzyMatch (pattern : String) : Option (String × ℚ) :=
  if pattern.data.isEmpty then none
  else
    match fuzzyFold pattern morseCode none with
    | some (m, b) =>
        if m ≤ 1 then some (b, maxQ (3/10 : ℚ) (1 - (m : ℚ) / 3)) else none
    | none => none

/-- The dot/dash string built at the top of `_decode_pattern`
(non-dot/dash elements contribute nothing). -/
def patternString (pattern : List MorseElement) : String :=
  ⟨pattern.foldr
    (fun e acc =>
      match e with
      | .dot => '.' :: acc
      | .dash => '-' :: acc
      | _ => acc)
    []⟩

/-- `MorseDecoder._decode_pattern`: exact table lookup, then fuzzy match,
then the replacement-character branch; each `DecodedCharacter(...)`
construction runs the dataclass validation. -/
def decodePattern (pattern : List MorseElement) :
    Except Unit (Option DecodedCharacter) :=
  if pattern.isEmpty then .ok none
  else
    match morseCode.lookup (patternString pattern) with
    | some ch => (mkDecodedCharacter ch 1 0 (patternString pattern)).map some
    | none =>
      match fuzzyMatch (patternString pattern) with
      | some (ch, conf) =>
          (mkDecodedCharacter ch conf 0 (patternString pattern)).map some
      | none =>
          (mkDecodedCharacter replacementChar 0 0
            (patternString pattern)).map some

/-- Per-symbol body of the loop in `MorseDecoder.decode`.  State is the
in-progress pattern (`_current_pattern`); a raised `ValueError` aborts with
the pattern as it stood at the raise point (the `clear()` after a decode
never runs when the decode raised). -/
def decodeSym (pat : List MorseElement) (sym : MorseSymbol) :
    Except Unit (List DecodedCharacter) × List MorseElement :=
  match sym.element with
  | .dot => (.ok [], pat ++ [.dot])
  | .dash => (.ok [], pat ++ [.dash])
  | .elementGap => (.ok [], pat)
  | .charGap =>
      if pat.isEmpty then (.ok [], pat)
      else
        match decodePattern pat with
        | .error e => (.error e, pat)
        | .ok c => (.ok c.toList, [])
  | .wordGap =>
      let fin : Except Unit (List DecodedCharacter) × List MorseElement :=
        if pat.isEmpty then (.ok [], pat)
        else
          match decodePattern pat with
          | .error e => (.error e, pat)
          | .ok c => (.ok c.toList, [])
      match fin with
      | (.error e, p) => (.error e, p)
      | (.ok cs, p) =>
          match mkDecodedCharacter " " 1 sym.timestamp "" with
          | .error e => (.error e, p)
          | .ok sp => (.ok (cs ++ [sp]), p)

/-- `MorseDecoder.decode` over a list of symbols: the loop accumulates the
emitted characters and aborts (losing the accumulated characters, as a
Python `raise` does) if a symbol's processing raises. -/
def decodeCall (pat : List MorseElement) :
    List MorseSymbol → Except Unit (List DecodedCharacter) × List MorseElement
  | [] => (.ok [], pat)
  | sym :: rest =>
      match decodeSym pat sym with
      | (.error e, p) => (.error e, p)
      | (.ok cs, p) =>
          match decodeCall p rest with
          | (.error e, p') => (.error e, p')
          | (.ok cs', p') => (.ok (cs ++ cs'), p')

/-- `MorseDecoder.reset`: clears the in-progress pattern. -/
def decoderReset (_pat : List MorseElement) : List MorseElement := []

/-! ## Generic stage runner

Each stage is a deterministic step function `S → I → O × S`; a run maps an
initial state and an input sequence to the output sequence. -/

/-- Run a deterministic stage over an input sequence, collecting outputs. -/
def runStage {S I O : Type} (step : S → I → O × S) : S → List I → List O
  | _, [] => []
  | s, i :: is =>
      let os := step s i
      os.1 :: runStage step os.2 is

/-! ## `detection/tone.py` (`EnvelopeDetector`)

`detect` derives a single scalar `chunk_level` (the RMS of the chunk) from
the audio data and never reads the data otherwise, so the embedding takes
the chunk level and the chunk timestamp as the input. -/

/-- Mutable state of `EnvelopeDetector` (the envelope-filter state `_zi` is
never read by `detect` and is omitted). -/
structure ToneState where
  isToneOn : Bool
  smoothedLevel : ℚ
  signalFloor : ℚ
  signalCeiling : ℚ
deriving DecidableEq

/-- Input to one `EnvelopeDetector.detect` call: the chunk's RMS level and
its timestamp. -/
structure ToneInput where
  level : ℚ
  timestamp : ℚ
deriving DecidableEq

/-- Initial `EnvelopeDetector` state (field defaults of the dataclass). -/
def toneInit : ToneState :=
  { isToneOn := false, smoothedLevel := 0, signalFloor := 0,
    signalCeiling := 1 }

/-- `EnvelopeDetector.reset`. -/
def toneReset (_s : ToneState) : ToneState := toneInit

/-- The working threshold and hysteresis chosen inside
`EnvelopeDetector.detect` (lines 89–97), from the updated floor/ceiling:
adaptive when the range exceeds `0.05`, else the configured tone threshold
with `0.3×` hysteresis. -/
def detectThresholds (floor ceiling toneThreshold : ℚ) : ℚ × ℚ :=
  if ceiling - floor > 1/20 then
    (floor + (ceiling - floor) * (1/2), (ceiling - floor) * (1/10))
  else
    (toneThreshold, toneThreshold * (3/10))

/-- `EnvelopeDetector.detect`: update the floor/ceiling trackers, pick the
working threshold, and emit at most one transition event with hysteresis. -/
def detectStep (toneThreshold : ℚ) (s : ToneState) (inp : ToneInput) :
    List ToneEvent × ToneState :=
  let level := inp.level
  let floor' :=
    if level < s.signalFloor ∨ s.signalFloor = 0 then level
    else s.signalFloor + (1/100) * (level - s.signalFloor)
  let ceiling' :=
    if level > s.signalCeiling then level
    else s.signalCeiling + (1/20) * (level - s.signalCeiling)
  let th := detectThresholds floor' ceiling' toneThreshold
  if ¬s.isToneOn then
    if level > th.1 + th.2 then
      ([⟨true, inp.timestamp, level⟩],
        { s with isToneOn := true, signalFloor := floor',
                 signalCeiling := ceiling' })
    else ([], { s with signalFloor := floor', signalCeiling := ceiling' })
  else
    if level < th.1 - th.2 then
      ([⟨false, inp.timestamp, level⟩],
        { s with isToneOn := false, signalFloor := floor',
                 signalCeiling := ceiling' })
    else ([], { s with signalFloor := floor', signalCeiling := ceiling' })

/-- Strict alternation of a boolean sequence starting at `b`. -/
def alternatesFrom (b : Bool) : List Bool → Prop
  | [] => True
  | x :: xs => x = b ∧ alternatesFrom (!b) xs

/-! ## `timing/adaptive.py` (`AdaptiveWPMDetector`) -/

/-- Configuration fields of `CWConfig` read by `AdaptiveWPMDetector`. -/
structure AdaptiveCfg where
  minWpm : ℚ
  maxWpm : ℚ
deriving DecidableEq

/-- `_required_lock_samples` (field default, never mutated). -/
def requiredLockSamples : ℕ := 5

/-- Mutable state of `AdaptiveWPMDetector`. -/
structure AdaptiveState where
  lastEvent : Option ToneEvent
  dotDurations : List ℚ
  dashDurations : List ℚ
  estimatedDotDuration : Option ℚ
  estimatedWpm : Option ℚ
  lockCount : ℕ
  bufferedEvents : List ToneEvent
  hasEmittedBuffered : Bool
deriving DecidableEq

/-- Initial state (the dataclass field defaults). -/
def adaptiveInit : AdaptiveState :=
  { lastEvent := none, dotDurations := [], dashDurations := [],
    estimatedDotDuration := none, estimatedWpm := none, lockCount := 0,
    bufferedEvents := [], hasEmittedBuffered := false }

/-- `AdaptiveWPMDetector.reset`. -/
def adaptiveReset (_s : AdaptiveState) : AdaptiveState := adaptiveInit

/-- Append to a `deque(maxlen=n)`: evicts the oldest (front) entry when
full. -/
def pushBounded {α : Type} (n : ℕ) (x : α) (q : List α) : List α :=
  if q.length < n then q ++ [x] else q.tail ++ [x]

/-- `AdaptiveWPMDetector.is_locked`. -/
def adaptiveIsLocked (s : AdaptiveState) : Bool :=
  decide (requiredLockSamples ≤ s.lockCount) &&
    s.estimatedDotDuration.isSome

/-- Insert into an ascending-sorted list. -/
def insertSorted (x : ℚ) : List ℚ → List ℚ
  | [] => [x]
  | y :: ys => if x ≤ y then x :: y :: ys else y :: insertSorted x ys

/-- Python `sorted` (ascending) on rationals. -/
def sortQ (l : List ℚ) : List ℚ := l.foldr insertSorted []

/-- `filter_outliers` inside `_update_timing_estimate`: with fewer than 3
samples keep `[0.025, 0.600]`; otherwise clamp by quartile fences and half
the median. -/
def filterOutliers (l : List ℚ) : List ℚ :=
  if l.length < 3 then
    l.filter (fun d => decide (1/40 ≤ d ∧ d ≤ 3/5))
  else
    let sorted := sortQ l
    let median := sorted.getD (l.length / 2) 0
    let q1 := sorted.getD (l.length / 4) 0
    let q3 := sorted.getD ((3 * l.length) / 4) 0
    let iqr := q3 - q1
    let lower := maxQ (1/40) (q1 - (3/2) * iqr)
    let upper := minQ (3/5) (q3 + (3/2) * iqr)
    let lower := maxQ lower (median * (1/2))
    l.filter (fun d => decide (lower ≤ d ∧ d ≤ upper))

/-- `AdaptiveWPMDetector._update_timing_estimate`. -/
def updateTimingEstimate (cfg : AdaptiveCfg) (s : AdaptiveState) :
    AdaptiveState :=
  if s.dotDurations.isEmpty ∧ s.dashDurations.isEmpty then s
  else if s.estimatedDotDuration = none ∧
      ¬(2 ≤ s.dotDurations.length ∨ 2 ≤ s.dashDurations.length ∨
        ((1 ≤ s.dotDurations.length ∧ 1 ≤ s.dashDurations.length) ∧
          2 ≤ s.dotDurations.length + s.dashDurations.length)) then s
  else
    let filteredDots := filterOutliers s.dotDurations
    let filteredDashes := filterOutliers s.dashDurations
    match filteredDots, filteredDashes with
    | [], [] => s
    | _, _ =>
      let dotEstimate0 :=
        if filteredDots.isEmpty then
          (sortQ filteredDashes).getD (filteredDashes.length / 2) 0 / 3
        else (sortQ filteredDots).getD (filteredDots.length / 2) 0
      let dotEstimate :=
        if ¬filteredDashes.isEmpty ∧ ¬filteredDots.isEmpty then
          (7/10) * dotEstimate0 +
            (3/10) * ((sortQ filteredDashes).getD
              (filteredDashes.length / 2) 0 / 3)
        else dotEstimate0
      let wpmEstimate := (12/10) / dotEstimate
      if ¬(cfg.minWpm ≤ wpmEstimate ∧ wpmEstimate ≤ cfg.maxWpm) then s
      else
        match s.estimatedDotDuration with
        | none =>
            { s with estimatedDotDuration := some dotEstimate,
                     estimatedWpm := some wpmEstimate, lockCount := 1 }
        | some oldDot =>
            let newDot := (1/5) * dotEstimate + (1 - 1/5) * oldDot
            let newWpm := (12/10) / newDot
            let oldWpm := s.estimatedWpm.getD 0
            let newCount :=
              if absQ (newWpm - oldWpm) < 2 then
                min (s.lockCount + 1) (requiredLockSamples + 10)
              else s.lockCount - 1
            { s with estimatedDotDuration := some newDot,
                     estimatedWpm := some newWpm, lockCount := newCount }

/-- `AdaptiveWPMDetector._classify_tone`: classify a tone duration as dot
or dash (2× threshold; 20 WPM bootstrap before an estimate exists), append
the sample to the matching bounded deque and refresh the estimate. -/
def classifyTone (cfg : AdaptiveCfg) (s : AdaptiveState) (duration : ℚ) :
    Option MorseSymbol × AdaptiveState :=
  let threshold :=
    match s.estimatedDotDuration with
    | none => ((12:ℚ)/10 / 20) * 2
    | some d => d * 2
  if duration < threshold then
    let s' := { s with dotDurations := pushBounded 20 duration s.dotDurations }
    (some ⟨.dot, duration, 0⟩, updateTimingEstimate cfg s')
  else
    let s' :=
      { s with dashDurations := pushBounded 20 duration s.dashDurations }
    (some ⟨.dash, duration, 0⟩, updateTimingEstimate cfg s')

/-- `AdaptiveWPMDetector._classify_gap`: element gap below `2×` dot,
character gap below `5×`, else word gap; unclassifiable without an
estimate. -/
def classifyGap (s : AdaptiveState) (duration : ℚ) : Option MorseSymbol :=
  match s.estimatedDotDuration with
  | none => none
  | some d =>
      if duration < d * 2 then some ⟨.elementGap, duration, 0⟩
      else if duration < d * 5 then some ⟨.charGap, duration, 0⟩
      else some ⟨.wordGap, duration, 0⟩

/-- `AdaptiveWPMDetector._reclassify_tone`: replay-time classification with
the current estimate; tones shorter than 30 ms are dropped as artifacts,
and statistics are not updated. -/
def reclassifyTone (s : AdaptiveState) (duration : ℚ) :
    Option MorseSymbol :=
  match s.estimatedDotDuration with
  | none => none
  | some d =>
      if duration < 3/100 then none
      else if duration < d * 2 then some ⟨.dot, duration, 0⟩
      else some ⟨.dash, duration, 0⟩

/-- Loop body of `_replay_buffered_events`: walk the buffered events
pairwise, tracking whether the last tone pair was successfully
reclassified (`last_valid_tone`). -/
def replayGo (s : AdaptiveState) (prev : ToneEvent) (lastValid : Bool) :
    List ToneEvent → List MorseSymbol
  | [] => []
  | e :: rest =>
      let duration := e.timestamp - prev.timestamp
      if duration ≤ 0 then replayGo s e lastValid rest
      else if prev.isToneOn && !e.isToneOn then
        match reclassifyTone s duration with
        | some sym => sym :: replayGo s e true rest
        | none => replayGo s e false rest
      else if !prev.isToneOn && e.isToneOn then
        if lastValid then
          match classifyGap s duration with
          | some g => g :: replayGo s e lastValid rest
          | none => replayGo s e lastValid rest
        else replayGo s e lastValid rest
      else replayGo s e lastValid rest

/-- `AdaptiveWPMDetector._replay_buffered_events`. -/
def replayBufferedEvents (s : AdaptiveState) : List MorseSymbol :=
  match s.bufferedEvents with
  | [] => []
  | [_] => []
  | e0 :: rest => replayGo s e0 false rest

/-- The part of `AdaptiveWPMDetector.analyze` after the replay check and
the buffering of the incoming event (`s1` is `self` at that point):
pairwise duration classification and gated emission. -/
def analyzeCore (cfg : AdaptiveCfg) (s1 : AdaptiveState)
    (event : ToneEvent) : List MorseSymbol × AdaptiveState :=
  match s1.lastEvent with
  | none => ([], { s1 with lastEvent := some event })
  | some last =>
      let duration := event.timestamp - last.timestamp
      if duration ≤ 0 then ([], s1)
      else if last.isToneOn && !event.isToneOn then
        let cs := classifyTone cfg s1 duration
        let out :=
          match cs.1 with
          | some sym =>
              if adaptiveIsLocked cs.2 && cs.2.hasEmittedBuffered then
                [sym]
              else []
          | none => []
        (out, { cs.2 with lastEvent := some event })
      else if !last.isToneOn && event.isToneOn then
        let out :=
          match classifyGap s1 duration with
          | some g =>
              if adaptiveIsLocked s1 && s1.hasEmittedBuffered then [g]
              else []
          | none => []
        (out, { s1 with lastEvent := some event })
      else ([], { s1 with lastEvent := some event })

/-- `AdaptiveWPMDetector.analyze`: one tone event in, a (possibly empty)
list of Morse symbols out, with the buffering/replay logic. -/
def analyze (cfg : AdaptiveCfg) (s : AdaptiveState) (event : ToneEvent) :
    List MorseSymbol × AdaptiveState :=
  if adaptiveIsLocked s && !s.hasEmittedBuffered &&
      decide (1 < s.bufferedEvents.length) then
    (replayBufferedEvents s,
      { s with hasEmittedBuffered := true,
               bufferedEvents := pushBounded 100 event s.bufferedEvents })
  else
    let s1 :=
      if !adaptiveIsLocked s then
        { s with bufferedEvents := pushBounded 100 event s.bufferedEvents }
      else s
    analyzeCore cfg s1 event

/-- `AdaptiveWPMDetector.timing_stats`: `None` when not locked; otherwise
constructs a `TimingStats` (whose dataclass validation may raise). -/
def adaptiveTimingStats (s : AdaptiveState) :
    Except Unit (Option TimingStats) :=
  if ¬adaptiveIsLocked s then .ok none
  else
    let t : TimingStats :=
      { dotDuration := s.estimatedDotDuration.getD 0
        wpm := s.estimatedWpm.getD 0
        confidence :=
          minQ 1 ((s.lockCount : ℚ) / (requiredLockSamples * 2))
        numSamples := s.dotDurations.length + s.dashDurations.length }
    if timingStatsValid t then .ok (some t) else .error ()

/-! ## `detection/frequency.py` (`FrequencyDetectorImpl`)

The FFT peak, its SNR/power, and the Goertzel SNR/power are functions of
the audio chunk alone (Goertzel additionally of the target frequency), so
they are modelled as the observation record fed to a detect step. -/

/-- `_required_lock_samples` of `FrequencyDetectorImpl`. -/
def freqRequiredLockSamples : ℕ := 5

/-- Mutable state of `FrequencyDetectorImpl`. -/
structure FreqState where
  currentFrequency : Option ℚ
  lockCount : ℕ
deriving DecidableEq

/-- Initial state (field defaults). -/
def freqInit : FreqState := { currentFrequency := none, lockCount := 0 }

/-- `FrequencyDetectorImpl.reset`. -/
def freqReset (_s : FreqState) : FreqState := freqInit

/-- `FrequencyDetectorImpl.is_locked`. -/
def freqIsLocked (s : FreqState) : Bool :=
  decide (freqRequiredLockSamples ≤ s.lockCount)

/-- Chunk-derived observations consumed by `detect`: whether the chunk has
at least `chunk_size // 2` samples, the windowed-FFT peak data, and the
Goertzel SNR/power as functions of the tracked target frequency. -/
structure FreqObs where
  enoughSamples : Bool
  fftPeakFreq : ℚ
  fftSnrDb : ℚ
  fftPeakPower : ℚ
  goertzelSnrDb : ℚ → ℚ
  goertzelPower : ℚ → ℚ

/-- State/output logic of `FrequencyDetectorImpl._fft_detect` (the spectrum
arithmetic itself is pure in the audio and folded into the observations). -/
def fftDetectStep (minSnrDb : ℚ) (s : FreqState) (obs : FreqObs) :
    Option SignalStats × FreqState :=
  if obs.fftSnrDb < minSnrDb then
    (none, { currentFrequency := none, lockCount := 0 })
  else
    match s.currentFrequency with
    | none =>
        (some ⟨obs.fftPeakFreq, obs.fftSnrDb, obs.fftPeakPower, 0⟩,
          { currentFrequency := some obs.fftPeakFreq, lockCount := 1 })
    | some f =>
        if absQ (obs.fftPeakFreq - f) < 10 then
          let f' := (3/10) * obs.fftPeakFreq + (1 - 3/10) * f
          (some ⟨f', obs.fftSnrDb, obs.fftPeakPower, 0⟩,
            { currentFrequency := some f', lockCount := s.lockCount + 1 })
        else
          (some ⟨obs.fftPeakFreq, obs.fftSnrDb, obs.fftPeakPower, 0⟩,
            { currentFrequency := some obs.fftPeakFreq, lockCount := 1 })

/-- Lock/hypothesis logic of `FrequencyDetectorImpl._goertzel_track` (lines
198–205), given the SNR and power the Goertzel filter computed for the
tracked frequency: low SNR decrements the lock counter (`max(0, ·−1)`) and
clears the frequency hypothesis only when the counter reaches 0; otherwise
the counter increments up to `required + 5`. -/
def goertzelTrackStep (minSnrDb : ℚ) (snrDb power targetFreq : ℚ)
    (s : FreqState) : Option SignalStats × FreqState :=
  if snrDb < minSnrDb then
    let c := s.lockCount - 1
    if c = 0 then (none, { currentFrequency := none, lockCount := c })
    else (none, { s with lockCount := c })
  else
    let c := min (s.lockCount + 1) (freqRequiredLockSamples + 5)
    (some ⟨targetFreq, snrDb, power, 0⟩, { s with lockCount := c })

/-- `FrequencyDetectorImpl.detect`: short chunks are ignored; FFT
acquisition while unlocked or without a hypothesis, Goertzel tracking while
locked. -/
def freqDetectStep (minSnrDb : ℚ) (s : FreqState) (obs : FreqObs) :
    Option SignalStats × FreqState :=
  if !obs.enoughSamples then (none, s)
  else
    match s.currentFrequency with
    | none => fftDetectStep minSnrDb s obs
    | some f =>
        if !freqIsLocked s then fftDetectStep minSnrDb s obs
        else
          goertzelTrackStep minSnrDb (obs.goertzelSnrDb f)
            (obs.goertzelPower f) f s

/-! ## `signal/noise.py` -/

/-- Constructor-derived parameters of `AutomaticGainControl` (the smoothing
coefficients involve `exp` and are carried as opaque rationals). -/
structure AGCParams where
  target : ℚ
  attackCoef : ℚ
  releaseCoef : ℚ
deriving DecidableEq

/-- Mutable state of `AutomaticGainControl`. -/
structure AGCState where
  envelope : ℚ
  gain : ℚ
deriving DecidableEq

/-- Initial AGC state (`envelope = 0.0`, `gain = 1.0`). -/
def agcInit : AGCState := { envelope := 0, gain := 1 }

/-- `AutomaticGainControl.reset`. -/
def agcReset (_s : AGCState) : AGCState := agcInit

/-- `np.clip(x, lo, hi)`. -/
def clipQ (x lo hi : ℚ) : ℚ := minQ (maxQ x lo) hi

/-- Per-sample body of `AutomaticGainControl.process`. -/
def agcSampleStep (p : AGCParams) (s : AGCState) (x : ℚ) : ℚ × AGCState :=
  let amplitude := |x|
  let env :=
    if amplitude > s.envelope then
      s.envelope + p.attackCoef * (amplitude - s.envelope)
    else s.envelope + p.releaseCoef * (amplitude - s.envelope)
  let desired :=
    if env > 1/10000000000 then clipQ (p.target / env) (1/10) 10 else 1
  let gain := s.gain + p.attackCoef * (desired - s.gain)
  (x * gain, ⟨env, gain⟩)

/-- `AutomaticGainControl.process` over one chunk. -/
def agcProcess (p : AGCParams) (s : AGCState) (data : List ℚ) :
    List ℚ × AGCState :=
  match data with
  | [] => ([], s)
  | x :: rest =>
      let o := agcSampleStep p s x
      let os := agcProcess p o.2 rest
      (o.1 :: os.1, os.2)

/-- Configuration parameters of `SquelchGate` (`smooth_coef` is the fixed
`0.1`). -/
structure SquelchParams where
  threshold : ℚ
  hysteresis : ℚ
deriving DecidableEq

/-- Mutable state of `SquelchGate`. -/
structure SquelchState where
  isOpen : Bool
  smoothedLevel : ℚ
deriving DecidableEq

/-- Initial squelch state. -/
def squelchInit : SquelchState := { isOpen := false, smoothedLevel := 0 }

/-- `SquelchGate.reset`. -/
def squelchReset (_s : SquelchState) : SquelchState := squelchInit

/-- `SquelchGate.process` given the chunk's RMS (a pure function of the
audio): returns whether the gate is open — the output chunk is the input
data when open and all zeros otherwise. -/
def squelchStep (p : SquelchParams) (s : SquelchState) (rms : ℚ) :
    Bool × SquelchState :=
  let lvl := s.smoothedLevel + (1/10) * (rms - s.smoothedLevel)
  let isOpen' :=
    if lvl > p.threshold + p.hysteresis then true
    else if lvl < p.threshold - p.hysteresis then false
    else s.isOpen
  (isOpen', ⟨isOpen', lvl⟩)

/-- Configuration parameters of `AdaptiveBandpassFilter`. -/
structure BandpassParams where
  sampleRate : ℚ
  bandwidth : ℚ
deriving DecidableEq

/-- The clamped low/high cutoffs computed by
`AdaptiveBandpassFilter._design_filter`; the Butterworth SOS coefficients
are a fixed function of this pair (with `N=4` and the sample rate). -/
def cutoffs (p : BandpassParams) (center : ℚ) : ℚ × ℚ :=
  let nyquist := p.sampleRate / 2
  let low := maxQ 1 (minQ (center - p.bandwidth / 2) (nyquist - 1))
  let high := maxQ (low + 1) (minQ (center + p.bandwidth / 2) (nyquist - 1))
  (low, high)

/-- Symbolic per-section filter state `zi`: `sosfilt_zi` of the filter
designed for given cutoffs, or the state returned by one `sosfilt` call.
Distinct representations denote distinct provenances; equal representations
denote equal numeric states. -/
inductive ZiRep : Type where
  | ziInit (cut : ℚ × ℚ)
  | ziNext (z : ZiRep) (cut : ℚ × ℚ) (data : List ℚ)
deriving DecidableEq

/-- State of `AdaptiveBandpassFilter`: the center frequency and the filter
state.  The SOS coefficients are always those designed for the current
center (every write to `center_frequency` goes through `_design_filter`),
so they are derived via `cutoffs` rather than stored. -/
structure BandpassState where
  centerFrequency : ℚ
  zi : ZiRep
deriving DecidableEq

/-- Constructor: `__init__` runs `_design_filter`, which derives the SOS
for the center frequency and initializes `zi = sosfilt_zi(sos)`. -/
def bandpassInit (p : BandpassParams) (center : ℚ) : BandpassState :=
  { centerFrequency := center, zi := .ziInit (cutoffs p center) }

/-- `AdaptiveBandpassFilter.retune`: set the center frequency and rerun
`_design_filter` (which reinitializes `zi`). -/
def bandpassRetune (p : BandpassParams) (_s : BandpassState) (center : ℚ) :
    BandpassState :=
  bandpassInit p center

/-- `AdaptiveBandpassFilter.reset`: `zi = sosfilt_zi(self.sos)` for the
current (possibly retuned) SOS. -/
def bandpassReset (p : BandpassParams) (s : BandpassState) : BandpassState :=
  { s with zi := .ziInit (cutoffs p s.centerFrequency) }

/-- Symbolic output of one `sosfilt` call: the filtered data is a fixed
function of the SOS (i.e. the cutoffs), the incoming state and the data. -/
structure FilterOut where
  cut : ℚ × ℚ
  zi : ZiRep
  data : List ℚ
deriving DecidableEq

/-- `AdaptiveBandpassFilter.filter`: apply the filter with state and carry
the returned state. -/
def bandpassFilter (p : BandpassParams) (s : BandpassState)
    (data : List ℚ) : FilterOut × BandpassState :=
  let c := cutoffs p s.centerFrequency
  (⟨c, s.zi, data⟩,
    { s with zi := .ziNext s.zi c data })

/-! ## Theorems -/

set_option maxRecDepth 100000

/-- `maxQ` agrees with the lattice `max`. -/
theorem maxQ_eq_max (a b : ℚ) : maxQ a b = max a b := by
  unfold maxQ
  rw [max_def]
  by_cases h : b ≤ a
  · rw [if_pos h]
    by_cases h2 : a ≤ b
    · rw [if_pos h2]
      exact le_antisymm h2 h
    · rw [if_neg h2]
  · rw [if_neg h, if_pos (le_of_not_le h)]

/-- `minQ` agrees with the lattice `min`. -/
theorem minQ_eq_min (a b : ℚ) : minQ a b = min a b := by
  unfold minQ
  rw [min_def]

/-- `absQ` agrees with `|·|`. -/
theorem absQ_eq_abs (x : ℚ) : absQ x = |x| := by
  unfold absQ
  rcases lt_or_le x 0 with h | h
  · rw [if_pos h, abs_of_neg h]
  · rw [if_neg (not_lt.mpr h), abs_of_nonneg h]

/-- **C6**: for every positive dot duration `d` and every sample count `n`,
`TimingStats.from_dot_duration(d, n)` passes the dataclass validation and
its `wpm` field is within `1e-6` of `1.2/d` (in exact arithmetic,
`1200/(d·1000)` equals `1.2/d` on the nose). -/
theorem c6_from_dot_duration_roundtrip (d : ℚ) (n : ℕ) (hd : 0 < d) :
    timingStatsValid (timingStatsFromDotDuration d n) = true ∧
      |(timingStatsFromDotDuration d n).wpm - (12/10) / d| ≤ 1/1000000 := by
  have hwpm : (1200 : ℚ) / (d * 1000) = (12/10) / d := by
    rw [div_eq_div_iff (by positivity) (by positivity)]
    ring
  constructor
  · unfold timingStatsValid timingStatsFromDotDuration
    simp only [Bool.and_eq_true, decide_eq_true_eq]
    refine ⟨⟨hd, ?_⟩, ?_⟩
    · rw [hwpm]; positivity
    · dsimp only
      split
      · exact ⟨le_min (by norm_num) (by positivity), min_le_left _ _⟩
      · norm_num
  · unfold timingStatsFromDotDuration
    dsimp only
    rw [hwpm, sub_self, abs_zero]
    norm_num

/-- **C6 witness**: instantiation at `d = 0.06`, `n = 4`. -/
theorem c6_from_dot_duration_roundtrip_witness :
    (0 : ℚ) < 3/50 ∧
      (timingStatsValid (timingStatsFromDotDuration (3/50) 4) = true ∧
        |(timingStatsFromDotDuration (3/50) 4).wpm - (12/10) / (3/50)| ≤
          1/1000000) :=
  ⟨by norm_num, c6_from_dot_duration_roundtrip (3/50) 4 (by norm_num)⟩

/-- **C1 counterexample**: the claim "`retune` leaves the per-section state
`zi` unchanged" is false: a filter constructed at 600 Hz
(sample rate 8000, bandwidth 200) that has processed one chunk carries an
evolved `zi`; `retune(800)` replaces it with the fresh
`sosfilt_zi` state of the new design. -/
theorem c1_retune_changes_zi :
    (bandpassRetune ⟨8000, 200⟩
        (bandpassFilter ⟨8000, 200⟩ (bandpassInit ⟨8000, 200⟩ 600) [1]).2
        800).zi ≠
      (bandpassFilter ⟨8000, 200⟩ (bandpassInit ⟨8000, 200⟩ 600) [1]).2.zi :=
  by decide

/-- **C1 (amended)**: `retune(freq)` re-derives the filter coefficients and
*reinitializes* the filter state: the resulting instance state equals that
of a freshly constructed filter at `freq` (so audio continuity is not
preserved), while `reset()` reinitializes `zi` for the current design. -/
theorem c1_retune_reinitializes_state (p : BandpassParams)
    (s : BandpassState) (f : ℚ) :
    bandpassRetune p s f = bandpassInit p f ∧
      (bandpassRetune p s f).zi = ZiRep.ziInit (cutoffs p f) ∧
      bandpassReset p s =
        { s with zi := ZiRep.ziInit (cutoffs p s.centerFrequency) } :=
  ⟨rfl, rfl, rfl⟩

/-- **C3 counterexample**: from the fresh detector state, a chunk of RMS
level 0 drives the trackers to `floor = 0`, `ceiling = 19/20` (a range above
the 0.05 minimum), yet the working threshold is *not*
`floor + 0.45·range` and the hysteresis is *not* `0.2·range` as claimed
(the code uses `0.5` and `0.1`). -/
theorem c3_threshold_counterexample :
    (detectStep (1/10) toneInit ⟨0, 0⟩).2.signalFloor = 0 ∧
      (detectStep (1/10) toneInit ⟨0, 0⟩).2.signalCeiling = 19/20 ∧
      (19/20 : ℚ) - 0 > 1/20 ∧
      ¬((detectThresholds 0 (19/20) (1/10)).1 =
          0 + (45/100) * ((19/20 : ℚ) - 0) ∧
        (detectThresholds 0 (19/20) (1/10)).2 =
          (2/10) * ((19/20 : ℚ) - 0)) := by
  refine ⟨?_, ?_, by norm_num, ?_⟩
  · norm_num [detectStep, detectThresholds, toneInit]
  · norm_num [detectStep, detectThresholds, toneInit]
  · rintro ⟨h, -⟩
    norm_num [detectThresholds] at h

/-- **C3 (amended)**: when the tracked range `ceiling − floor` exceeds the
minimum dynamic range `0.05`, the working threshold is
`floor + 0.5·(ceiling−floor)` with hysteresis `0.1·(ceiling−floor)`;
otherwise the configured tone threshold with `0.3×` hysteresis. -/
theorem c3_threshold_formula (floor ceiling toneThr : ℚ) :
    (ceiling - floor > 1/20 →
      detectThresholds floor ceiling toneThr =
        (floor + (ceiling - floor) * (1/2), (ceiling - floor) * (1/10))) ∧
    (¬(ceiling - floor > 1/20) →
      detectThresholds floor ceiling toneThr =
        (toneThr, toneThr * (3/10))) := by
  constructor <;> intro h <;> unfold detectThresholds
  · rw [if_pos h]
  · rw [if_neg h]

/-- **C3 witness**: both branches of the amended statement at concrete
tracker values. -/
theorem c3_threshold_formula_witness :
    ((19/20 : ℚ) - 0 > 1/20 ∧
      detectThresholds 0 (19/20) (1/10) =
        (0 + ((19/20 : ℚ) - 0) * (1/2), ((19/20 : ℚ) - 0) * (1/10))) ∧
    (¬((1/100 : ℚ) - 0 > 1/20) ∧
      detectThresholds 0 (1/100) (1/10) =
        ((1/10 : ℚ), (1/10 : ℚ) * (3/10))) :=
  ⟨⟨by norm_num, (c3_threshold_formula 0 (19/20) (1/10)).1 (by norm_num)⟩,
   ⟨by norm_num, (c3_threshold_formula 0 (1/100) (1/10)).2 (by norm_num)⟩⟩

/-- **C7 counterexample**: in the locked state `⟨some 600, 5⟩`, one
Goertzel step with SNR `0` below the minimum `6` leaves counter `4`: the
detector is already UNLOCKED (`is_locked` is `count ≥ 5`) although the
counter is not `0`, and the frequency hypothesis is still present —
refuting "becomes UNLOCKED only when the counter reaches 0". -/
theorem c7_unlock_counterexample :
    freqIsLocked ⟨some 600, 5⟩ = true ∧ (0 : ℚ) < 6 ∧
      (goertzelTrackStep 6 0 0 600 ⟨some 600, 5⟩).2.lockCount = 4 ∧
      freqIsLocked (goertzelTrackStep 6 0 0 600 ⟨some 600, 5⟩).2 = false ∧
      (goertzelTrackStep 6 0 0 600 ⟨some 600, 5⟩).2.lockCount ≠ 0 ∧
      (goertzelTrackStep 6 0 0 600 ⟨some 600, 5⟩).2.currentFrequency =
        some 600 := by
  refine ⟨rfl, by norm_num, ?_, ?_, ?_, ?_⟩ <;>
    norm_num [goertzelTrackStep, freqIsLocked, freqRequiredLockSamples]

/-- **C7 (amended)**: from a locked state (counter ≥ 5), a Goertzel step
with SNR below the minimum decrements the counter by exactly 1 — so it
never reaches 0 from a locked state and the frequency hypothesis is
retained — and the detector leaves the LOCKED state exactly when the
counter was at the minimum 5; a step with SNR at or above the minimum
increments the counter, capped at `required + 5 = 10`, and stays locked. -/
theorem c7_goertzel_lock_counter (minSnr snr power f : ℚ) (s : FreqState)
    (hlock : freqIsLocked s = true) :
    (snr < minSnr →
      (goertzelTrackStep minSnr snr power f s).2.lockCount =
          s.lockCount - 1 ∧
        (goertzelTrackStep minSnr snr power f s).2.lockCount ≠ 0 ∧
        (goertzelTrackStep minSnr snr power f s).2.currentFrequency =
          s.currentFrequency ∧
        (freqIsLocked (goertzelTrackStep minSnr snr power f s).2 =
          decide (6 ≤ s.lockCount))) ∧
    (¬snr < minSnr →
      (goertzelTrackStep minSnr snr power f s).2.lockCount =
          min (s.lockCount + 1) 10 ∧
        (goertzelTrackStep minSnr snr power f s).2.currentFrequency =
          s.currentFrequency ∧
        freqIsLocked (goertzelTrackStep minSnr snr power f s).2 = true) := by
  have h5 : 5 ≤ s.lockCount := by
    simpa [freqIsLocked, freqRequiredLockSamples] using hlock
  constructor
  · intro hsnr
    have hne : ¬(s.lockCount - 1 = 0) := by omega
    have hstep : (goertzelTrackStep minSnr snr power f s).2 =
        ⟨s.currentFrequency, s.lockCount - 1⟩ := by
      simp only [goertzelTrackStep, if_pos hsnr]
      rw [if_neg hne]
    rw [hstep]
    refine ⟨rfl, hne, rfl, ?_⟩
    simp only [freqIsLocked, freqRequiredLockSamples, decide_eq_decide]
    omega
  · intro hsnr
    have hstep : (goertzelTrackStep minSnr snr power f s).2 =
        ⟨s.currentFrequency, min (s.lockCount + 1) 10⟩ := by
      simp only [goertzelTrackStep, if_neg hsnr, freqRequiredLockSamples]
    rw [hstep]
    refine ⟨rfl, rfl, ?_⟩
    simp only [freqIsLocked, freqRequiredLockSamples, decide_eq_true_eq]
    omega

/-- **C7 witness**: both branches at the locked state `⟨some 600, 5⟩`
(minimum SNR 6; a low-SNR step with SNR 0, a good step with SNR 10). -/
theorem c7_goertzel_lock_counter_witness :
    freqIsLocked ⟨some 600, 5⟩ = true ∧
      ((0 : ℚ) < 6 ∧
        (goertzelTrackStep 6 0 0 600 ⟨some 600, 5⟩).2.lockCount = 5 - 1) ∧
      (¬(10 : ℚ) < 6 ∧
        (goertzelTrackStep 6 10 0 600 ⟨some 600, 5⟩).2.lockCount =
          min (5 + 1) 10) :=
  ⟨by decide,
   ⟨by norm_num,
    ((c7_goertzel_lock_counter 6 0 0 600 ⟨some 600, 5⟩ (by decide)).1
      (by norm_num)).1⟩,
   ⟨by norm_num,
    ((c7_goertzel_lock_counter 6 10 0 600 ⟨some 600, 5⟩ (by decide)).2
      (by norm_num)).1⟩⟩

/-- **C5**: for every stage, `reset()` followed by any deterministic input
sequence reproduces the output sequence of a freshly constructed instance
with the stage's configuration (for the bandpass filter the constructor
takes the centre frequency, so "same configuration" is the filter's
current — possibly retuned — centre): the reset state *is* the fresh
state.  The third conjunct is the retuned bandpass filter. -/
theorem c5_reset_idempotent :
    (∀ (p : AGCParams) (s : AGCState) (ins : List (List ℚ)),
      runStage (agcProcess p) (agcReset s) ins =
        runStage (agcProcess p) agcInit ins) ∧
    (∀ (p : BandpassParams) (s : BandpassState) (ins : List (List ℚ)),
      runStage (bandpassFilter p) (bandpassReset p s) ins =
        runStage (bandpassFilter p) (bandpassInit p s.centerFrequency) ins) ∧
    (∀ (p : BandpassParams) (s : BandpassState) (f : ℚ)
        (ins : List (List ℚ)),
      runStage (bandpassFilter p) (bandpassReset p (bandpassRetune p s f))
          ins =
        runStage (bandpassFilter p) (bandpassInit p f) ins) ∧
    (∀ (p : SquelchParams) (s : SquelchState) (ins : List ℚ),
      runStage (squelchStep p) (squelchReset s) ins =
        runStage (squelchStep p) squelchInit ins) ∧
    (∀ (minSnr : ℚ) (s : FreqState) (ins : List FreqObs),
      runStage (freqDetectStep minSnr) (freqReset s) ins =
        runStage (freqDetectStep minSnr) freqInit ins) ∧
    (∀ (t : ℚ) (s : ToneState) (ins : List ToneInput),
      runStage (detectStep t) (toneReset s) ins =
        runStage (detectStep t) toneInit ins) ∧
    (∀ (cfg : AdaptiveCfg) (s : AdaptiveState) (ins : List ToneEvent),
      runStage (analyze cfg) (adaptiveReset s) ins =
        runStage (analyze cfg) adaptiveInit ins) ∧
    (∀ (pat : List MorseElement) (ins : List (List MorseSymbol)),
      runStage decodeCall (decoderReset pat) ins =
        runStage decodeCall [] ins) :=
  ⟨fun _ _ _ => rfl, fun _ _ _ => rfl, fun _ _ _ _ => rfl, fun _ _ _ => rfl,
   fun _ _ _ => rfl, fun _ _ _ => rfl, fun _ _ _ => rfl, fun _ _ => rfl⟩

/-- **C9**: `timing_stats` is `None` exactly when the analyzer is not
locked, where locked is "lock counter ≥ 5 and a dot-duration estimate
exists"; when locked (and the estimates are positive, so that the
`TimingStats` dataclass validation passes, as holds for every estimate the
code ever stores), the stats carry confidence `min(1, lock_count/10)` and
the total count of stored dot and dash samples. -/
theorem c9_timing_stats_none_iff_unlocked (s : AdaptiveState) :
    (adaptiveIsLocked s =
      (decide (5 ≤ s.lockCount) && s.estimatedDotDuration.isSome)) ∧
    (adaptiveIsLocked s = false → adaptiveTimingStats s = .ok none) ∧
    (adaptiveIsLocked s = true →
      0 < s.estimatedDotDuration.getD 0 →
      0 < s.estimatedWpm.getD 0 →
      adaptiveTimingStats s = .ok (some
        { dotDuration := s.estimatedDotDuration.getD 0
          wpm := s.estimatedWpm.getD 0
          confidence := min 1 ((s.lockCount : ℚ) / 10)
          numSamples := s.dotDurations.length + s.dashDurations.length })) := by
  refine ⟨rfl, ?_, ?_⟩
  · intro h
    unfold adaptiveTimingStats
    rw [if_pos (by simp [h])]
  · intro h h1 h2
    unfold adaptiveTimingStats
    rw [if_neg (by simp [h])]
    have h10 : ((requiredLockSamples : ℚ) * 2) = 10 := by
      norm_num [requiredLockSamples]
    rw [h10, minQ_eq_min]
    rw [if_pos]
    unfold timingStatsValid
    simp only [Bool.and_eq_true, decide_eq_true_eq]
    exact ⟨⟨h1, h2⟩,
      le_min (by norm_num) (by positivity), min_le_left _ _⟩

/-- **C9 witness**: instantiation at a concrete locked state (counter 6,
estimate 60 ms) and a concrete unlocked state (the initial state). -/
theorem c9_timing_stats_none_iff_unlocked_witness :
    (adaptiveIsLocked adaptiveInit = false ∧
      adaptiveTimingStats adaptiveInit = .ok none) ∧
    (adaptiveIsLocked
        ⟨none, [3/50], [9/50], some (3/50), some 20, 6, [], true⟩ = true ∧
      (0 : ℚ) < 3/50 ∧ (0 : ℚ) < 20 ∧
      adaptiveTimingStats
          ⟨none, [3/50], [9/50], some (3/50), some 20, 6, [], true⟩ =
        .ok (some
          { dotDuration := (Option.some (3/50 : ℚ)).getD 0
            wpm := (Option.some (20 : ℚ)).getD 0
            confidence := min 1 ((6 : ℕ) / 10 : ℚ)
            numSamples := [(3/50 : ℚ)].length + [(9/50 : ℚ)].length })) :=
  ⟨⟨rfl, (c9_timing_stats_none_iff_unlocked adaptiveInit).2.1 rfl⟩,
   ⟨rfl, by norm_num, by norm_num,
    (c9_timing_stats_none_iff_unlocked
        ⟨none, [3/50], [9/50], some (3/50), some 20, 6, [], true⟩).2.2 rfl
      (by norm_num) (by norm_num)⟩⟩

/-- Each `EnvelopeDetector.detect` call either emits no event and keeps the
on/off state, or emits exactly the single transition event (flag flipped,
chunk timestamp, chunk level) and flips the state. -/
theorem detectStep_shape (t : ℚ) (s : ToneState) (inp : ToneInput) :
    ((detectStep t s inp).1 = [] ∧
        (detectStep t s inp).2.isToneOn = s.isToneOn) ∨
      ((detectStep t s inp).1 =
          [⟨!s.isToneOn, inp.timestamp, inp.level⟩] ∧
        (detectStep t s inp).2.isToneOn = !s.isToneOn) := by
  rcases hOn : s.isToneOn with _ | _ <;>
    simp only [detectStep, hOn] <;> split_ifs <;> simp_all

/-- One-step unfolding of `runStage`. -/
theorem runStage_cons {S I O : Type} (step : S → I → O × S) (s : S) (i : I)
    (is : List I) :
    runStage step s (i :: is) =
      (step s i).1 :: runStage step (step s i).2 is := rfl

/-- Invariant: from any state, the stream of emitted tone-event flags
alternates starting with the negation of the current on/off state. -/
theorem runStage_detect_alternates (t : ℚ) (ins : List ToneInput) :
    ∀ s : ToneState,
      alternatesFrom (!s.isToneOn)
        (((runStage (detectStep t) s ins).flatten).map ToneEvent.isToneOn) := by
  induction ins with
  | nil => intro s; simp [runStage, alternatesFrom]
  | cons i rest ih =>
      intro s
      rw [runStage_cons, List.flatten_cons, List.map_append]
      rcases detectStep_shape t s i with ⟨h1, h2⟩ | ⟨h1, h2⟩
      · rw [h1]
        simp only [List.map_nil, List.nil_append]
        have := ih (detectStep t s i).2
        rwa [h2] at this
      · rw [h1]
        simp only [List.map_cons, List.map_nil, List.cons_append,
          List.nil_append]
        refine ⟨rfl, ?_⟩
        have := ih (detectStep t s i).2
        rwa [h2] at this

/-- **C10**: each `detect` call returns at most one `ToneEvent`; every
emitted event carries the producing chunk's timestamp; and from a fresh
detector the emitted events strictly alternate starting with tone-on. -/
theorem c10_tone_event_alternation :
    (∀ (t : ℚ) (s : ToneState) (inp : ToneInput),
      (detectStep t s inp).1.length ≤ 1) ∧
    (∀ (t : ℚ) (s : ToneState) (inp : ToneInput),
      ∀ ev ∈ (detectStep t s inp).1, ev.timestamp = inp.timestamp) ∧
    (∀ (t : ℚ) (ins : List ToneInput),
      alternatesFrom true
        (((runStage (detectStep t) toneInit ins).flatten).map
          ToneEvent.isToneOn)) := by
  refine ⟨?_, ?_, ?_⟩
  · intro t s inp
    rcases detectStep_shape t s inp with ⟨h1, -⟩ | ⟨h1, -⟩ <;> simp [h1]
  · intro t s inp ev hev
    rcases detectStep_shape t s inp with ⟨h1, -⟩ | ⟨h1, -⟩ <;>
      rw [h1] at hev
    · cases hev
    · rw [List.mem_singleton] at hev
      rw [hev]
  · intro t ins
    exact runStage_detect_alternates t ins toneInit

/-- **C10 witness**: a level-1 chunk at time 2 fed to the fresh detector
emits the single tone-on event stamped with the chunk's timestamp. -/
theorem c10_tone_event_alternation_witness :
    (detectStep (1/10) toneInit ⟨1, 2⟩).1.length ≤ 1 ∧
      ((⟨true, 2, 1⟩ : ToneEvent) ∈ (detectStep (1/10) toneInit ⟨1, 2⟩).1 ∧
        (⟨true, 2, 1⟩ : ToneEvent).timestamp = 2) ∧
      alternatesFrom true
        (((runStage (detectStep (1/10)) toneInit [⟨1, 2⟩]).flatten).map
          ToneEvent.isToneOn) := by
  have hmem : (⟨true, 2, 1⟩ : ToneEvent) ∈
      (detectStep (1/10) toneInit ⟨1, 2⟩).1 := by
    norm_num [detectStep, detectThresholds, toneInit]
  exact ⟨c10_tone_event_alternation.1 (1/10) toneInit ⟨1, 2⟩,
    ⟨hmem, c10_tone_event_alternation.2.1 (1/10) toneInit ⟨1, 2⟩ _ hmem⟩,
    c10_tone_event_alternation.2.2 (1/10) [⟨1, 2⟩]⟩

/-- **C4**: evaluation at the failing input.  The ten-dot pattern is at
edit distance ≥ 2 from every table entry, so `_decode_pattern` takes the
replacement-character branch — and *raises*: the mojibake literal
`"ï¿½"` has three characters, so the `DecodedCharacter` dataclass
validation rejects it, contradicting the claim that decoding never raises
and returns a confidence-0 placeholder. -/
theorem c4_unknown_pattern_raises :
    (morseCode.all fun e =>
      decide (2 ≤ editDistance
        (patternString (List.replicate 10 MorseElement.dot)) e.1)) = true ∧
      decodePattern (List.replicate 10 MorseElement.dot) = .error () :=
  ⟨by decide, rfl⟩

/-- A successful association-list lookup returns one of the stored
values. -/
theorem lookup_mem_values (l : List (String × String)) :
    ∀ (k v : String), l.lookup k = some v → v ∈ l.map Prod.snd := by
  induction l with
  | nil => intro k v h; simp [List.lookup] at h
  | cons e rest ih =>
      intro k v h
      obtain ⟨k', v'⟩ := e
      cases hk : k == k' <;> simp only [List.lookup, hk] at h
      · simp only [List.map_cons, List.mem_cons]
        exact Or.inr (ih k v h)
      · cases h
        simp

/-- Fold invariant of `_fuzzy_match`: starting from a seed, the fold ends
with the minimum distance over the seed and the remaining entries, held by
the seed or by an entry attaining that minimum. -/
theorem fuzzyFold_spec (ps : String) (l : List (String × String)) :
    ∀ (m : ℕ) (b : String),
      ∃ m' b', fuzzyFold ps l (some (m, b)) = some (m', b') ∧
        m' ≤ m ∧ (∀ e ∈ l, m' ≤ editDistance ps e.1) ∧
        ((m' = m ∧ b' = b) ∨
          ∃ e ∈ l, editDistance ps e.1 = m' ∧ b' = e.2) := by
  induction l with
  | nil =>
      intro m b
      exact ⟨m, b, rfl, le_refl _, by simp, Or.inl ⟨rfl, rfl⟩⟩
  | cons e rest ih =>
      intro m b
      have hstep : fuzzyFold ps (e :: rest) (some (m, b)) =
          fuzzyFold ps rest
            (if editDistance ps e.1 < m then some (editDistance ps e.1, e.2)
              else some (m, b)) := rfl
      by_cases hd : editDistance ps e.1 < m
      · rw [hstep, if_pos hd]
        obtain ⟨m', b', heq, hle, hall, hor⟩ := ih (editDistance ps e.1) e.2
        refine ⟨m', b', heq, le_trans hle (le_of_lt hd), ?_, ?_⟩
        · intro e' he'
          rcases List.mem_cons.mp he' with rfl | h
          · exact hle
          · exact hall e' h
        · rcases hor with ⟨hm, hb⟩ | ⟨e', he', hd', hb'⟩
          · exact Or.inr ⟨e, List.mem_cons_self e rest, hm.symm ▸ rfl, hb⟩
          · exact Or.inr ⟨e', List.mem_cons_of_mem e he', hd', hb'⟩
      · rw [hstep, if_neg hd]
        obtain ⟨m', b', heq, hle, hall, hor⟩ := ih m b
        refine ⟨m', b', heq, hle, ?_, ?_⟩
        · intro e' he'
          rcases List.mem_cons.mp he' with rfl | h
          · exact le_trans hle (le_of_not_lt hd)
          · exact hall e' h
        · rcases hor with h | ⟨e', he', hd', hb'⟩
          · exact Or.inl h
          · exact Or.inr ⟨e', List.mem_cons_of_mem e he', hd', hb'⟩

/-- The `_fuzzy_match` fold over the full table yields the table-wide
minimum distance, attained by some entry whose character it returns. -/
theorem fuzzyFold_morse (ps : String) :
    ∃ m b, fuzzyFold ps morseCode none = some (m, b) ∧
      (∀ e ∈ morseCode, m ≤ editDistance ps e.1) ∧
      ∃ e ∈ morseCode, editDistance ps e.1 = m ∧ b = e.2 := by
  have hcons : morseCode = (".-", "A") :: morseCode.tail := rfl
  have h0 : fuzzyFold ps morseCode none =
      fuzzyFold ps morseCode.tail (some (editDistance ps ".-", "A")) := rfl
  obtain ⟨m, b, heq, hle, hall, hor⟩ :=
    fuzzyFold_spec ps morseCode.tail (editDistance ps ".-") "A"
  refine ⟨m, b, h0.trans heq, ?_, ?_⟩
  · intro e he
    rw [hcons] at he
    rcases List.mem_cons.mp he with rfl | h
    · exact hle
    · exact hall e h
  · rcases hor with ⟨hm, hb⟩ | ⟨e, he, h1, h2⟩
    · refine ⟨(".-", "A"), ?_, hm.symm ▸ rfl, hb⟩
      rw [hcons]
      exact List.mem_cons_self _ _
    · refine ⟨e, ?_, h1, h2⟩
      rw [hcons]
      exact List.mem_cons_of_mem _ he

/-- The replacement-character construction always raises (the literal has
three characters and is not a prosign). -/
theorem mkReplacementChar_error (ps : String) :
    mkDecodedCharacter replacementChar 0 0 ps = .error () := by
  unfold mkDecodedCharacter
  rw [if_neg (by norm_num), if_neg (by norm_num), if_pos (by decide)]

/-- The space character construction succeeds for a nonnegative
timestamp. -/
theorem mkSpace_ok (ts : ℚ) (h : 0 ≤ ts) :
    mkDecodedCharacter " " 1 ts "" = .ok ⟨" ", 1, ts, ""⟩ := by
  unfold mkDecodedCharacter
  rw [if_neg (by norm_num), if_neg (not_lt.mpr h), if_neg (by decide)]

/-- Every character `_decode_pattern` successfully returns is a value of
the Morse table. -/
theorem decodePattern_char_mem (pat : List MorseElement)
    (c : DecodedCharacter) (h : decodePattern pat = .ok (some c)) :
    c.char ∈ morseCode.map Prod.snd := by
  unfold decodePattern at h
  by_cases hemp : pat.isEmpty
  · rw [if_pos hemp] at h
    cases h
  · rw [if_neg hemp] at h
    cases hlk : morseCode.lookup (patternString pat) with
    | some ch =>
        rw [hlk] at h
        simp only at h
        unfold mkDecodedCharacter at h
        rw [if_neg (show ¬¬((0:ℚ) ≤ 1 ∧ (1:ℚ) ≤ 1) by norm_num),
          if_neg (show ¬((0:ℚ) < 0) by norm_num)] at h
        by_cases hc3 : ch.data.length ≠ 1 ∧ ch.data.headD ' ' ≠ '<'
        · rw [if_pos hc3] at h
          simp only [Except.map] at h
          exact Except.noConfusion h
        · rw [if_neg hc3] at h
          simp only [Except.map, Except.ok.injEq, Option.some.injEq] at h
          rw [← h]
          exact lookup_mem_values morseCode _ _ hlk
    | none =>
        rw [hlk] at h
        simp only at h
        cases hfm : fuzzyMatch (patternString pat) with
        | some pr =>
            obtain ⟨ch, conf⟩ := pr
            rw [hfm] at h
            simp only at h
            have hch : ch ∈ morseCode.map Prod.snd := by
              unfold fuzzyMatch at hfm
              by_cases hpe : (patternString pat).data.isEmpty
              · rw [if_pos hpe] at hfm
                cases hfm
              · rw [if_neg hpe] at hfm
                obtain ⟨m, b, heq, -, e, he, -, hbe⟩ :=
                  fuzzyFold_morse (patternString pat)
                rw [heq] at hfm
                simp only at hfm
                by_cases hm1 : m ≤ 1
                · rw [if_pos hm1] at hfm
                  simp only [Option.some.injEq, Prod.mk.injEq] at hfm
                  rw [← hfm.1, hbe]
                  exact List.mem_map_of_mem Prod.snd he
                · rw [if_neg hm1] at hfm
                  cases hfm
            unfold mkDecodedCharacter at h
            by_cases hc1 : ¬(0 ≤ conf ∧ conf ≤ 1)
            · rw [if_pos hc1] at h
              simp only [Except.map] at h
              exact Except.noConfusion h
            · rw [if_neg hc1, if_neg (show ¬((0:ℚ) < 0) by norm_num)] at h
              by_cases hc3 : ch.data.length ≠ 1 ∧ ch.data.headD ' ' ≠ '<'
              · rw [if_pos hc3] at h
                simp only [Except.map] at h
                exact Except.noConfusion h
              · rw [if_neg hc3] at h
                simp only [Except.map, Except.ok.injEq,
                  Option.some.injEq] at h
                rw [← h]
                exact hch
        | none =>
            rw [hfm] at h
            simp only at h
            rw [mkReplacementChar_error] at h
            simp only [Except.map] at h
            exact Except.noConfusion h

/-- **C8 counterexample**: a `WORD_GAP` arriving with the undecodable
ten-dot pattern in progress appends *no* space: finalizing the pattern
raises (the replacement-character `ValueError`), aborting `decode` before
the space is appended — refuting "always appends exactly one space". -/
theorem c8_word_gap_counterexample :
    decodeSym (List.replicate 10 MorseElement.dot) ⟨.wordGap, 1, 2⟩ =
      (.error (), List.replicate 10 MorseElement.dot) := rfl

/-- Processing a `WORD_GAP` when finalizing the in-progress pattern does
not raise: the decoded character (if any) followed by exactly the space,
and a cleared pattern. -/
theorem decodeSym_word_gap (pat : List MorseElement) (d ts : ℚ)
    (c : Option DecodedCharacter) (hts : 0 ≤ ts)
    (hdp : decodePattern pat = .ok c) :
    decodeSym pat ⟨.wordGap, d, ts⟩ =
      (.ok (c.toList ++ [⟨" ", 1, ts, ""⟩]), []) := by
  cases pat with
  | nil =>
      have hc : c = none := by
        have h0 : decodePattern [] = .ok none := rfl
        rw [h0] at hdp
        cases hdp
        rfl
      subst hc
      simp only [decodeSym, List.isEmpty_nil, if_true, Option.toList,
        List.nil_append]
      rw [mkSpace_ok ts hts]
  | cons p ps =>
      have hemp : ¬(p :: ps).isEmpty = true := by simp
      simp only [decodeSym]
      rw [if_neg hemp, hdp]
      simp only []
      rw [mkSpace_ok ts hts]

/-- **C8 (amended)**: provided finalizing the in-progress pattern does not
hit the raising replacement-character construction (`decodePattern`
returns `ok`), a `WORD_GAP` appends exactly one space character with
confidence 1.0 — in particular a word gap with an *empty* in-progress
pattern always yields exactly the space — while a `CHAR_GAP` with an empty
pattern produces no character at all. -/
theorem c8_gap_handling :
    (∀ d ts : ℚ, 0 ≤ ts →
      decodeSym [] ⟨.wordGap, d, ts⟩ = (.ok [⟨" ", 1, ts, ""⟩], [])) ∧
    (∀ (pat : List MorseElement) (d ts : ℚ) (c : Option DecodedCharacter),
      0 ≤ ts → decodePattern pat = .ok c →
      decodeSym pat ⟨.wordGap, d, ts⟩ =
          (.ok (c.toList ++ [⟨" ", 1, ts, ""⟩]), []) ∧
        ((c.toList ++ [(⟨" ", 1, ts, ""⟩ : DecodedCharacter)]).filter
          (fun x => x.char == " ")).length = 1) ∧
    (∀ d ts : ℚ, decodeSym [] ⟨.charGap, d, ts⟩ = (.ok [], [])) := by
  refine ⟨?_, ?_, ?_⟩
  · intro d ts hts
    have := decodeSym_word_gap [] d ts none hts rfl
    simpa using this
  · intro pat d ts c hts hdp
    refine ⟨decodeSym_word_gap pat d ts c hts hdp, ?_⟩
    cases c with
    | none => simp
    | some ch =>
        have hmem : ch.char ∈ morseCode.map Prod.snd :=
          decodePattern_char_mem pat ch hdp
        have hspace : (" " : String) ∉ morseCode.map Prod.snd := by decide
        have hne : ch.char ≠ " " := fun h => hspace (h ▸ hmem)
        simp [List.filter, hne, beq_eq_false_iff_ne.mpr hne]
  · intro d ts
    rfl

/-- **C8 witness**: word gap on an empty pattern, word gap after a single
dot (decoding `"E"`), and char gap on an empty pattern. -/
theorem c8_gap_handling_witness :
    ((0 : ℚ) ≤ 2 ∧
      decodeSym [] ⟨.wordGap, 1, 2⟩ = (.ok [⟨" ", 1, 2, ""⟩], [])) ∧
    (decodePattern [MorseElement.dot] =
        .ok (some ⟨"E", 1, 0, "."⟩) ∧
      decodeSym [MorseElement.dot] ⟨.wordGap, 1, 2⟩ =
        (.ok ((Option.some
            (⟨"E", 1, 0, "."⟩ : DecodedCharacter)).toList ++
          [⟨" ", 1, 2, ""⟩]), [])) ∧
    decodeSym [] ⟨.charGap, 1, 2⟩ = (.ok [], []) :=
  ⟨⟨by norm_num, c8_gap_handling.1 1 2 (by norm_num)⟩,
   ⟨rfl,
    (c8_gap_handling.2.1 [MorseElement.dot] 1 2
      (some ⟨"E", 1, 0, "."⟩) (by norm_num) rfl).1⟩,
   c8_gap_handling.2.2 1 2⟩

/-- `_update_timing_estimate` never touches `_has_emitted_buffered`. -/
theorem updateTimingEstimate_hasEmitted (cfg : AdaptiveCfg)
    (s : AdaptiveState) :
    (updateTimingEstimate cfg s).hasEmittedBuffered =
      s.hasEmittedBuffered := by
  unfold updateTimingEstimate
  dsimp only
  repeat' split
  all_goals rfl

/-- `_classify_tone` never touches `_has_emitted_buffered`. -/
theorem classifyTone_hasEmitted (cfg : AdaptiveCfg) (s : AdaptiveState)
    (d : ℚ) :
    (classifyTone cfg s d).2.hasEmittedBuffered = s.hasEmittedBuffered := by
  unfold classifyTone
  dsimp only
  repeat' split
  all_goals simp [updateTimingEstimate_hasEmitted]

/-- `is_locked` ignores `_last_event`. -/
theorem adaptiveIsLocked_withLastEvent (s : AdaptiveState)
    (e : Option ToneEvent) :
    adaptiveIsLocked { s with lastEvent := e } = adaptiveIsLocked s := rfl

/-- `is_locked` ignores the replay bookkeeping fields. -/
theorem adaptiveIsLocked_withReplayFields (s : AdaptiveState)
    (b : List ToneEvent) (he : Bool) :
    adaptiveIsLocked
        { s with hasEmittedBuffered := he, bufferedEvents := b } =
      adaptiveIsLocked s := rfl

/-- Before the buffer has been replayed, the classification path emits no
symbols (the emission gates require `_has_emitted_buffered`). -/
theorem analyzeCore_no_emit (cfg : AdaptiveCfg) (s1 : AdaptiveState)
    (e : ToneEvent) (hemit : s1.hasEmittedBuffered = false) :
    (analyzeCore cfg s1 e).1 = [] := by
  unfold analyzeCore
  cases hle : s1.lastEvent with
  | none => rfl
  | some last =>
      dsimp only
      by_cases hd : e.timestamp - last.timestamp ≤ 0
      · rw [if_pos hd]
      · rw [if_neg hd]
        by_cases ht : (last.isToneOn && !e.isToneOn) = true
        · rw [if_pos ht]
          dsimp only
          cases hcs :
              (classifyTone cfg s1 (e.timestamp - last.timestamp)).1 with
          | none => rfl
          | some sym =>
              have : (classifyTone cfg s1
                  (e.timestamp - last.timestamp)).2.hasEmittedBuffered =
                  false := by rw [classifyTone_hasEmitted]; exact hemit
              simp [this]
        · rw [if_neg ht]
          by_cases hgap : (!last.isToneOn && e.isToneOn) = true
          · rw [if_pos hgap]
            dsimp only
            cases hcg :
                classifyGap s1 (e.timestamp - last.timestamp) with
            | none => rfl
            | some g => simp [hemit]
          · rw [if_neg hgap]

/-- If the classification path emits a symbol, the analyzer is locked in
the post-call state (the emission gates require `is_locked`, and
`_last_event` does not affect it). -/
theorem analyzeCore_emits_locked (cfg : AdaptiveCfg) (s1 : AdaptiveState)
    (e : ToneEvent) (hne : (analyzeCore cfg s1 e).1 ≠ []) :
    adaptiveIsLocked (analyzeCore cfg s1 e).2 = true := by
  revert hne
  unfold analyzeCore
  cases hle : s1.lastEvent with
  | none => intro hne; exact absurd rfl hne
  | some last =>
      dsimp only
      intro hne
      by_cases hd : e.timestamp - last.timestamp ≤ 0
      · rw [if_pos hd] at hne
        exact absurd rfl hne
      · rw [if_neg hd] at hne ⊢
        by_cases ht : (last.isToneOn && !e.isToneOn) = true
        · rw [if_pos ht] at hne ⊢
          dsimp only at hne ⊢
          revert hne
          cases hcs :
              (classifyTone cfg s1 (e.timestamp - last.timestamp)).1 with
          | none => intro hne; exact absurd rfl hne
          | some sym =>
              intro hne
              dsimp only at hne
              by_cases hcond : (adaptiveIsLocked (classifyTone cfg s1
                  (e.timestamp - last.timestamp)).2 &&
                  (classifyTone cfg s1
                    (e.timestamp -
                      last.timestamp)).2.hasEmittedBuffered) = true
              · simp only [Bool.and_eq_true] at hcond
                exact hcond.1
              · rw [if_neg hcond] at hne
                exact absurd rfl hne
        · rw [if_neg ht] at hne ⊢
          by_cases hgap : (!last.isToneOn && e.isToneOn) = true
          · rw [if_pos hgap] at hne ⊢
            dsimp only at hne ⊢
            revert hne
            cases hcg :
                classifyGap s1 (e.timestamp - last.timestamp) with
            | none => intro hne; exact absurd rfl hne
            | some g =>
                intro hne
                dsimp only at hne
                by_cases hcond : (adaptiveIsLocked s1 &&
                    s1.hasEmittedBuffered) = true
                · simp only [Bool.and_eq_true] at hcond
                  exact hcond.1
                · rw [if_neg hcond] at hne
                  exact absurd rfl hne
          · rw [if_neg hgap] at hne
            exact absurd rfl hne

/-- **C2**: (i) while the analyzer has not yet locked and replayed, no
symbols are emitted; (ii) any call that emits symbols ends locked; (iii) on
the first call at which the analyzer is locked with at least two buffered
events, the output is exactly the one-time pairwise replay of the buffer
and the replay flag is set; (iv) during replay a tone pair shorter than
30 ms yields no symbol and clears the valid-tone flag; (v) a gap pair
yields no symbol when the preceding tone was not successfully
reclassified. -/
theorem c2_buffering_and_replay :
    (∀ (cfg : AdaptiveCfg) (s : AdaptiveState) (e : ToneEvent),
      adaptiveIsLocked s = false → s.hasEmittedBuffered = false →
      (analyze cfg s e).1 = []) ∧
    (∀ (cfg : AdaptiveCfg) (s : AdaptiveState) (e : ToneEvent),
      (analyze cfg s e).1 ≠ [] →
      adaptiveIsLocked (analyze cfg s e).2 = true) ∧
    (∀ (cfg : AdaptiveCfg) (s : AdaptiveState) (e : ToneEvent),
      adaptiveIsLocked s = true → s.hasEmittedBuffered = false →
      1 < s.bufferedEvents.length →
      analyze cfg s e = (replayBufferedEvents s,
        { s with hasEmittedBuffered := true,
                 bufferedEvents := pushBounded 100 e s.bufferedEvents })) ∧
    (∀ (s : AdaptiveState) (prev : ToneEvent) (lastValid : Bool)
        (e : ToneEvent) (rest : List ToneEvent),
      prev.isToneOn = true → e.isToneOn = false →
      0 < e.timestamp - prev.timestamp →
      e.timestamp - prev.timestamp < 3/100 →
      replayGo s prev lastValid (e :: rest) = replayGo s e false rest) ∧
    (∀ (s : AdaptiveState) (prev : ToneEvent) (e : ToneEvent)
        (rest : List ToneEvent),
      prev.isToneOn = false → e.isToneOn = true →
      replayGo s prev false (e :: rest) = replayGo s e false rest) := by
  refine ⟨?_, ?_, ?_, ?_, ?_⟩
  · intro cfg s e hlock hemit
    unfold analyze
    rw [if_neg (by simp [hlock])]
    dsimp only
    refine analyzeCore_no_emit cfg _ e ?_
    simp [hlock, hemit]
  · intro cfg s e hne
    unfold analyze at hne ⊢
    by_cases hg : (adaptiveIsLocked s && !s.hasEmittedBuffered &&
        decide (1 < s.bufferedEvents.length)) = true
    · rw [if_pos hg] at hne ⊢
      have hlock : adaptiveIsLocked s = true := by
        simp only [Bool.and_eq_true] at hg
        exact hg.1.1
      simpa [adaptiveIsLocked_withReplayFields] using hlock
    · rw [if_neg hg] at hne ⊢
      exact analyzeCore_emits_locked cfg _ e hne
  · intro cfg s e h1 h2 h3
    unfold analyze
    rw [if_pos (by simp [h1, h2, h3])]
  · intro s prev lastValid e rest h1 h2 h3 h4
    have hrt : reclassifyTone s (e.timestamp - prev.timestamp) = none := by
      unfold reclassifyTone
      cases s.estimatedDotDuration with
      | none => rfl
      | some dd =>
          dsimp only
          rw [if_pos h4]
    simp only [replayGo]
    rw [if_neg (not_le.mpr h3)]
    simp only [h1, h2, Bool.not_false, Bool.and_self, if_true, hrt]
  · intro s prev e rest h1 h2
    simp only [replayGo]
    by_cases hd : e.timestamp - prev.timestamp ≤ 0
    · rw [if_pos hd]
    · rw [if_neg hd]
      simp only [h1, h2, Bool.not_true, Bool.false_and, Bool.not_false,
        Bool.true_and, Bool.false_eq_true, if_false, ite_true, ite_false]

/-- **C2 witness**: the five parts instantiated — the fresh analyzer
absorbs an event silently; a locked-with-buffer state replays (and the call
that emits ends locked); a 10 ms replay tone yields no symbol; a gap after
an unreclassified tone yields no symbol. -/
theorem c2_buffering_and_replay_witness :
    (analyze ⟨5, 55⟩ adaptiveInit ⟨true, 1, 1⟩).1 = [] ∧
    adaptiveIsLocked (analyze ⟨5, 55⟩
        ⟨none, [], [], some (3/50), some 20, 5,
          [⟨true, 0, 1⟩, ⟨false, 6/100, 1⟩], false⟩ ⟨true, 1/5, 1⟩).2 =
      true ∧
    analyze ⟨5, 55⟩
        ⟨none, [], [], some (3/50), some 20, 5,
          [⟨true, 0, 1⟩, ⟨false, 6/100, 1⟩], false⟩ ⟨true, 1/5, 1⟩ =
      (replayBufferedEvents
        ⟨none, [], [], some (3/50), some 20, 5,
          [⟨true, 0, 1⟩, ⟨false, 6/100, 1⟩], false⟩,
       ⟨none, [], [], some (3/50), some 20, 5,
        pushBounded 100 ⟨true, 1/5, 1⟩
          [⟨true, 0, 1⟩, ⟨false, 6/100, 1⟩], true⟩) ∧
    replayGo adaptiveInit ⟨true, 0, 1⟩ false [⟨false, 1/100, 1⟩] =
      replayGo adaptiveInit ⟨false, 1/100, 1⟩ false [] ∧
    replayGo adaptiveInit ⟨false, 0, 1⟩ false [⟨true, 1, 1⟩] =
      replayGo adaptiveInit ⟨true, 1, 1⟩ false [] :=
  ⟨c2_buffering_and_replay.1 ⟨5, 55⟩ adaptiveInit ⟨true, 1, 1⟩ rfl rfl,
   c2_buffering_and_replay.2.1 ⟨5, 55⟩ _ _
     (by norm_num [analyze, analyzeCore, adaptiveIsLocked,
       requiredLockSamples, replayBufferedEvents, replayGo, reclassifyTone,
       classifyGap, pushBounded]),
   c2_buffering_and_replay.2.2.1 ⟨5, 55⟩ _ _ rfl rfl (by norm_num),
   c2_buffering_and_replay.2.2.2.1 adaptiveInit ⟨true, 0, 1⟩ false
     ⟨false, 1/100, 1⟩ [] rfl rfl (by norm_num) (by norm_num),
   c2_buffering_and_replay.2.2.2.2 adaptiveInit ⟨false, 0, 1⟩
     ⟨true, 1, 1⟩ [] rfl rfl⟩

end CW
